import Mathlib

/-!
Verification of the Canonicalization & Consolidation Engine of the
pdf-excel-converter repository.

The repository holds two generations of the same Flask application:
`src/app.py` (current) and `src/Backend/app.py` (legacy).  The engine's
components are embedded from the file whose code the specification
describes:

* Value Normalizer        : `clean_value` in `src/app.py` (lines 236-252)
* Canonical Name Resolver : `get_canonical_name` in `src/app.py` (lines 232-234)
* Consolidation Engine    : the fold in `upload_and_convert_pdfs`,
                            `src/app.py` lines 449-461 (sums duplicates)
* Year normalization      : the amounts loop of `generate_excel`,
                            `src/Backend/app.py` lines 783-820
* Exclusivity Resolver    : `src/Backend/app.py` lines 822-901
* Report Projector        : `src/Backend/app.py` lines 905-1062

Numeric values are modelled as rationals; the values involved are decimal
literals, so no floating-point rounding is relevant to any claim.
-/

namespace PdfExcel

/-! ### Python string primitives -/

/-- Whitespace characters removed by Python's `str.strip()`. -/
def pySpace (c : Char) : Bool :=
  c = ' ' || c = '\t' || c = '\n' || c = '\r' || c = '\x0b' || c = '\x0c'

/-- Python `str.strip()` on a character list. -/
def pyStripChars (cs : List Char) : List Char :=
  ((cs.dropWhile pySpace).reverse.dropWhile pySpace).reverse

/-- Python `str.strip()` on a string. -/
def pyStrip (s : String) : String :=
  ⟨pyStripChars s.toList⟩

/-- ASCII lower-casing of one character (the table keys are ASCII, so this
matches Python's `str.lower()` on every input that can reach the table). -/
def lowerChar (c : Char) : Char :=
  if 65 ≤ c.toNat ∧ c.toNat ≤ 90 then Char.ofNat (c.toNat + 32) else c

/-- Python `str.lower()`. -/
def pyLower (s : String) : String :=
  ⟨s.toList.map lowerChar⟩

/-- Characters kept by `re.sub(r'[^\d.]', '', value)`: digits and the dot. -/
def keepDigitDot (c : Char) : Bool :=
  c.isDigit || c = '.'

/-- Decimal value of a digit list (the usual left fold). -/
def digitsToNat (cs : List Char) : ℕ :=
  cs.foldl (fun n c => 10 * n + (c.toNat - 48)) 0

/-- Number of decimal points in a character list. -/
def dotCount : List Char → ℕ
  | [] => 0
  | c :: cs => (if c = '.' then 1 else 0) + dotCount cs

/-- Test for a character other than the decimal point. -/
def notDot (c : Char) : Bool := c ≠ '.'

/-- Python `float()` on a string made only of digits and dots: it succeeds
exactly when there is at most one dot and at least one digit, reading the
dot as the decimal point.  Used after the cleaning regex has removed every
other character. -/
def pyFloatOfDigits (cs : List Char) : Option ℚ :=
  let intPart := cs.takeWhile notDot
  match cs.dropWhile notDot with
  | [] => if intPart.isEmpty then none else some (digitsToNat intPart)
  | _ :: frac =>
    if 0 < dotCount frac then none
    else if intPart.isEmpty && frac.isEmpty then none
    else some ((digitsToNat intPart : ℚ) + (digitsToNat frac : ℚ) / 10 ^ frac.length)

/-! ### Raw values

A raw amount arriving from the extraction step is a number, a string, or
some other JSON value (`null`, a list, ...); `clean_value` returns `None`
on the last kind. -/

inductive RawValue where
  | num (q : ℚ)
  | txt (s : String)
  | other
deriving DecidableEq

/-- Value Normalizer, from `clean_value` in `src/app.py` lines 236-252:
numbers pass through; strings are stripped, a parenthesized form marks a
negative, every character but digits and dots is removed, the remainder is
parsed as a float, and any failure yields `none`. -/
def clean_value : RawValue → Option ℚ
  | .num q => some q
  | .other => none
  | .txt s =>
    let t := pyStripChars s.toList
    let neg : Bool := (t.head? == some '(') && (t.getLast? == some ')')
    let filtered := t.filter keepDigitDot
    if filtered.isEmpty then none
    else
      match pyFloatOfDigits filtered with
      | some q => some (if neg then -q else q)
      | none => none

/-! ### Canonical Name Resolver -/

/-- Synonym table `CANONICAL_DESCRIPTIONS` of `src/app.py` lines 87-190,
as an association list in source order. -/
def CANONICAL_DESCRIPTIONS : List (String × String) := [
  ("property, plant and equipment", "Property, plant and equipment"),
  ("pp&e", "Property, plant and equipment"),
  ("ppe", "Property, plant and equipment"),
  ("other financial assets", "Other financial assets"),
  ("trade and other receivables", "Trade and other receivables"),
  ("trade receivables", "Trade and other receivables"),
  ("cash and cash equivalents", "Cash and Cash Equivalents"),
  ("cash equivalents", "Cash and Cash Equivalents"),
  ("cash at bank", "Cash and Cash Equivalents"),
  ("total assets", "Total Assets"),
  ("total asset", "Total Assets"),
  ("reserves", "Reserves"),
  ("accumulated surplus", "Accumulated surplus"),
  ("accum surplus", "Accumulated surplus"),
  ("accumulated deficit", "Accumulated deficit"),
  ("accumulated funds", "Accumulated Funds"),
  ("total equity", "Total Equity"),
  ("total equ", "Total Equity"),
  ("deferred tax liability", "Deferred tax liability"),
  ("tax liability", "Deferred tax liability"),
  ("trade and other payables", "Trade and Other Payables"),
  ("trade payables", "Trade and Other Payables"),
  ("provisions", "Provisions"),
  ("bank overdraft", "Bank overdraft"),
  ("total liabilities", "Total Liabilities"),
  ("total liability", "Total Liabilities"),
  ("total equity and liabilities", "Total Equity and Liabilities"),
  ("total equity & liabilities", "Total Equity and Liabilities"),
  ("total equity and liab", "Total Equity and Liabilities"),
  ("revenue", "Revenue"),
  ("levies received", "Levies received"),
  ("fines", "Fines"),
  ("water recovered", "Water recovered"),
  ("ombudsman levy", "Ombudsman levy"),
  ("electricity recovered", "Electricity recovered"),
  ("garage levies", "Garage levies"),
  ("security levies", "Security levies"),
  ("other income", "Other income"),
  ("tower rental", "Tower rental"),
  ("insurance claims received", "Insurance claims received"),
  ("special levy", "Special levy"),
  ("interest received", "Interest received"),
  ("fair value adjustments", "Fair value adjustments"),
  ("operating expenses", "Operating expenses"),
  ("accounting fees", "Accounting fees"),
  ("bank charges", "Bank charges"),
  ("csos", "CSOS"),
  ("cleaning", "Cleaning"),
  ("depreciation, amortisation and impairments", "Depreciation, amortisation and impairments"),
  ("depreciation and amortisation", "Depreciation and amortisation"),
  ("electricity", "Electricity"),
  ("employee costs", "Employee costs"),
  ("garden services", "Garden services"),
  ("insurance", "Insurance"),
  ("management fees", "Management fees"),
  ("other expenses", "Other expenses"),
  ("petrol and oil", "Petrol and oil"),
  ("printing and stationery", "Printing and stationery"),
  ("protective clothing", "Protective clothing"),
  ("repairs and maintenance", "Repairs and maintenance"),
  ("security", "Security"),
  ("investment revenue", "Investment revenue"),
  ("surplus (deficit) for the year", "Surplus (deficit) for the year"),
  ("total comprehensive income (loss) for the year", "Total comprehensive income (loss) for the year"),
  ("cash on hand", "Cash on hand"),
  ("bank balances", "Bank balances"),
  ("bank balance", "Bank balances"),
  ("short-term deposits", "Short-term deposits"),
  ("short term deposits", "Short-term deposits"),
  ("amounts received in advance", "Amounts received in advance"),
  ("deposits received", "Deposits received"),
  ("legal proceedings", "Legal proceedings"),
  ("rental income", "Rental Income"),
  ("auditor\x27s remuneration", "Auditor\x27s remuneration"),
  ("fees", "Auditor\x27s remuneration"),
  ("bad debts", "Bad debts"),
  ("consulting and professional fees", "Consulting and professional fees"),
  ("interest income", "Interest income"),
  ("csos levies", "CSOS levies"),
  ("garbage levies", "Garbage levies"),
  ("compensation commissioner", "Compensation commissioner"),
  ("employee costs - salaried staff", "Employee costs - salaried staff"),
  ("municipal charges", "Municipal charges"),
  ("electricity - recovered from members", "Electricity - recovered from members"),
  ("water-recovered from members", "Water - recovered from members"),
  ("maintenance", "Maintenance"),
  ("elevator maintenace", "Elevator maintenance"),
  ("total income", "Total Income"),
  ("total operating expenses", "Total Operating Expenses"),
  ("(deficit) surplus for the year", "(Deficit) surplus for the year"),
  ("surplus before taxation", "Surplus before taxation"),
  ("adjustments for", "Adjustments for"),
  ("movements in provisions", "Movements in provisions"),
  ("changes in working capital", "Changes in working capital"),
  ("net provisions", "Net provisions"),
  ("taxation", "Taxation"),
  ("non provision of tax", "Non provision of tax"),
  ("cash generated from (used in) operations", "Cash generated from (used in) operations"),
  ("basic", "Basic (Employee Cost)"),
  ("uif", "UIF (Employee Cost)"),
  ("absa", "Bank balances")]

/-- Canonical Name Resolver, from `get_canonical_name` in `src/app.py`:
`CANONICAL_DESCRIPTIONS.get(name.lower().strip(), name)`. -/
def get_canonical_name (name : String) : String :=
  match CANONICAL_DESCRIPTIONS.lookup (pyStrip (pyLower name)) with
  | some c => c
  | none => name

/-! ### Consolidation Engine (`src/app.py` lines 449-461)

A `RawLineItem` is one record produced by the LLM extraction; the
consolidated ledger maps a canonical description and a year string to an
optional amount.  (In the Python code the year keys of
`consolidated_items[name]` stay strings; `src/app.py` never converts them
to integers.)  Dict-key creation (`consolidated_items[canonical_name] = {}`
for a new name) only matters to the legacy projection and is not part of
the value semantics modelled here. -/

structure RawLineItem where
  description : String
  amountsByYear : List (String × RawValue)

/-- A consolidated ledger: canonical description, then year string, to an
optional amount.  `none` is "no extracted value". -/
def SrcLedger : Type := String → String → Option ℚ

/-- Processing of one `(year, value)` pair for an item resolving to
`canonical`: a non-null cleaned value is added to the existing slot
(`consolidated_items[canonical_name].get(year, 0) + cleaned_val`); a null
result leaves the ledger unchanged. -/
def applyPair (led : SrcLedger) (canonical : String) (p : String × RawValue) : SrcLedger :=
  match clean_value p.2 with
  | none => led
  | some v =>
    fun d y =>
      if d = canonical ∧ y = p.1 then some ((led canonical p.1).getD 0 + v) else led d y

/-- Processing of one `RawLineItem`. -/
def applyItem (led : SrcLedger) (item : RawLineItem) : SrcLedger :=
  item.amountsByYear.foldl (fun l p => applyPair l (get_canonical_name item.description) p) led

/-- The consolidation fold of `upload_and_convert_pdfs`, starting from an
empty ledger. -/
def consolidate (items : List RawLineItem) : SrcLedger :=
  items.foldl applyItem (fun _ _ => none)

example : clean_value (.txt ("100")) = some 100 := by decide
example : clean_value (.txt ("1 234")) = some 1234 := by decide
example : clean_value (.txt ("")) = none := by decide
example : clean_value (.txt ("abc")) = none := by decide
example : clean_value (.txt ("()")) = none := by decide
example : clean_value (.txt ("1.2.3")) = none := by decide
example : get_canonical_name ("Revenue") = "Revenue" := by decide
example : get_canonical_name ("ABSA") = "Bank balances" := by decide

/-! ### Lemmas about the Value Normalizer -/

/-- The cleaned token of a raw string: Python's
`re.sub(r'[^\d.]', '', value.strip())`. -/
def cleanedToken (s : String) : List Char :=
  (pyStripChars s.toList).filter keepDigitDot

lemma two_dots_split (cs : List Char) (h : 2 ≤ dotCount cs) :
    ∃ frac, cs.dropWhile notDot = '.' :: frac ∧ 1 ≤ dotCount frac := by
  induction cs with
  | nil => simp [dotCount] at h
  | cons c cs ih =>
    by_cases hc : c = '.'
    · subst hc
      refine ⟨cs, by simp [List.dropWhile_cons, notDot], ?_⟩
      simp [dotCount] at h
      omega
    · have h' : 2 ≤ dotCount cs := by
        simp [dotCount, hc] at h
        omega
      obtain ⟨frac, h1, h2⟩ := ih h'
      exact ⟨frac, by simp [List.dropWhile_cons, notDot, hc, h1], h2⟩

lemma pyFloat_two_dots (cs : List Char) (h : 2 ≤ dotCount cs) :
    pyFloatOfDigits cs = none := by
  obtain ⟨frac, hd, hf⟩ := two_dots_split cs h
  have hpos : 0 < dotCount frac := hf
  simp [pyFloatOfDigits, hd, hpos]

/-- Claim C6: the Value Normalizer is a total function into `Option ℚ`
(so no exception can reach its caller); a cleaned token that still holds
two or more decimal points parses to `none`, and the three spec examples
`normalize("")`, `normalize("abc")` and `normalize("()")` are `none`. -/
theorem clean_value_null_on_parse_failure (s : String)
    (h : 2 ≤ dotCount (cleanedToken s)) :
    clean_value (.txt s) = none ∧ clean_value (.txt ("")) = none ∧
      clean_value (.txt ("abc")) = none ∧ clean_value (.txt ("()")) = none := by
  refine ⟨?_, by decide, by decide, by decide⟩
  have hm : pyFloatOfDigits ((pyStripChars s.toList).filter keepDigitDot) = none :=
    pyFloat_two_dots _ h
  simp only [String.toList] at hm
  simp [clean_value, String.toList, hm]

/-- Witness for C6 at the concrete token with two decimal points. -/
theorem clean_value_null_on_parse_failure_witness :
    2 ≤ dotCount (cleanedToken ("1.2.3")) ∧
      (clean_value (.txt ("1.2.3")) = none ∧ clean_value (.txt ("")) = none ∧
        clean_value (.txt ("abc")) = none ∧ clean_value (.txt ("()")) = none) :=
  ⟨by decide, clean_value_null_on_parse_failure ("1.2.3") (by decide)⟩

/-! ### Claims about the consolidation fold -/

/-- Claim C1: two items whose descriptions resolve to the same canonical
description and that carry values for the same year consolidate to the sum
of their normalized values, an absent slot counting as zero; and in
general a non-null normalized value is ADDED to whatever the slot already
holds, never overwriting it. -/
theorem consolidate_sums_duplicate_slots
    (d1 d2 c y : String) (r1 r2 : RawValue) (q1 q2 : ℚ)
    (h1 : get_canonical_name d1 = c) (h2 : get_canonical_name d2 = c)
    (hv1 : clean_value r1 = some q1) (hv2 : clean_value r2 = some q2) :
    consolidate [⟨d1, [(y, r1)]⟩, ⟨d2, [(y, r2)]⟩] c y = some (q1 + q2) ∧
      ∀ led : SrcLedger, applyPair led c (y, r1) c y =
        some ((led c y).getD 0 + q1) := by
  constructor
  · simp only [consolidate, List.foldl_cons, List.foldl_nil, applyItem, h1, h2]
    simp only [applyPair, hv1, hv2]
    simp
  · intro led
    simp [applyPair, hv1]

/-- Witness for C1: the spec's own example, yielding 150, and the additive
update at the empty ledger. -/
theorem consolidate_sums_duplicate_slots_witness :
    consolidate [⟨"Revenue", [(("2022"), .txt ("100"))]⟩,
        ⟨"Revenue", [(("2022"), .txt ("50"))]⟩] ("Revenue") ("2022") = some 150 ∧
      applyPair (fun _ _ => none) ("Revenue") (("2022"), .txt ("100"))
        ("Revenue") ("2022") = some 100 := by
  have h := consolidate_sums_duplicate_slots ("Revenue") ("Revenue") ("Revenue")
    ("2022") (.txt ("100")) (.txt ("50")) 100 50
    (by decide) (by decide) (by decide) (by decide)
  refine ⟨h.1.trans (by norm_num), (h.2 (fun _ _ => none)).trans (by norm_num)⟩

lemma applyItem_all_null (L : SrcLedger) (i : RawLineItem)
    (hi : ∀ q ∈ i.amountsByYear, clean_value q.2 = none) :
    applyItem L i = L := by
  unfold applyItem
  generalize i.amountsByYear = ps at hi
  induction ps generalizing L with
  | nil => rfl
  | cons p ps ih =>
    rw [List.foldl_cons]
    have hp : clean_value p.2 = none := hi p (by simp)
    have : applyPair L (get_canonical_name i.description) p = L := by
      simp [applyPair, hp]
    rw [this]
    exact ih L (fun q hq => hi q (List.mem_cons_of_mem _ hq))

/-- Claim C7: a null normalization result leaves the ledger untouched, both
at the single-pair level and for a whole later item every value of which
normalizes to null. -/
theorem consolidate_null_leaves_slot_untouched
    (led : SrcLedger) (c : String) (p : String × RawValue)
    (hp : clean_value p.2 = none)
    (items : List RawLineItem) (i : RawLineItem)
    (hi : ∀ q ∈ i.amountsByYear, clean_value q.2 = none) :
    applyPair led c p = led ∧ consolidate (items ++ [i]) = consolidate items := by
  constructor
  · simp [applyPair, hp]
  · show (items ++ [i]).foldl applyItem (fun _ _ => none) = consolidate items
    rw [List.foldl_append]
    simp only [List.foldl_cons, List.foldl_nil]
    exact applyItem_all_null _ _ hi

/-- Witness for C7: a later item whose value fails to normalize leaves the
accumulated ledger of the C1 example unchanged. -/
theorem consolidate_null_leaves_slot_untouched_witness :
    applyPair (consolidate [⟨"Revenue", [(("2022"), .txt ("100"))]⟩]) ("Revenue")
        (("2022"), .txt ("abc")) =
      consolidate [⟨"Revenue", [(("2022"), .txt ("100"))]⟩] ∧
    consolidate ([⟨"Revenue", [(("2022"), .txt ("100"))]⟩] ++
        [⟨"Revenue", [(("2022"), .txt ("abc"))]⟩]) =
      consolidate [⟨"Revenue", [(("2022"), .txt ("100"))]⟩] :=
  consolidate_null_leaves_slot_untouched _ ("Revenue") (("2022"), .txt ("abc"))
    (by decide) _ _ (by decide)

/-! ### Backend ledger (`src/Backend/app.py`)

`consolidated_items_by_key` maps a key `(description, category,
subcategory)` to a per-year dict keyed by integer years.  We keep the
dict's key list (insertion order) and a total data function; a year absent
from an inner dict and a year mapped to `None` behave identically at every
place the claims look (the resolver reads both as "no value", the
projector skips both). -/

abbrev BKey := String × String × String

/-- Description component of a backend key. -/
def BKey.desc (k : BKey) : String := k.1

structure BLedger where
  keys : List BKey
  data : BKey → Int → Option ℚ

/-- Writing one year slot of one key (`consolidated_items_by_key[k][y] = v`;
`v = none` models both `= None` and `del`). -/
def BLedger.write (L : BLedger) (k : BKey) (y : Int) (v : Option ℚ) : BLedger :=
  ⟨L.keys, fun k2 y2 => if k2 = k ∧ y2 = y then v else L.data k2 y2⟩

/-! ### Backend year and amount parsing (`src/Backend/app.py` lines 783-820) -/

/-- Python `int()` on a string: strip whitespace, optional sign, then at
least one digit. -/
def pyIntOfString (s : String) : Option Int :=
  match pyStripChars s.toList with
  | '+' :: ds => if ds ≠ [] ∧ ds.all Char.isDigit then some (digitsToNat ds) else none
  | '-' :: ds => if ds ≠ [] ∧ ds.all Char.isDigit then some (-(digitsToNat ds : Int)) else none
  | ds => if ds ≠ [] ∧ ds.all Char.isDigit then some (digitsToNat ds) else none

/-- Characters kept by `re.sub(r'[^\d.-]+', '', ...)`. -/
def keepDigitDotMinus (c : Char) : Bool := c.isDigit || c = '.' || c = '-'

/-- Removal of every decimal point. -/
def dropDots (cs : List Char) : List Char := cs.filter notDot

/-- The backend's merge of several decimal points into one:
`parts = s.split('.'); s = parts[0] + '.' + ''.join(parts[1:])`. -/
def joinDots (cs : List Char) : List Char :=
  match cs.dropWhile notDot with
  | [] => cs
  | _ :: rest => cs.takeWhile notDot ++ '.' :: dropDots rest

/-- Python `float()` on a backend-cleaned token, which may still carry
minus signs: one leading minus is honoured, a minus anywhere else raises
`ValueError` (modelled as `none`). -/
def pyFloatSigned (cs : List Char) : Option ℚ :=
  match cs with
  | '-' :: rest => if rest.contains '-' then none else (pyFloatOfDigits rest).map Neg.neg
  | _ => if cs.contains '-' then none else pyFloatOfDigits cs

/-- The backend amount cleaning, lines 788-803: strip, turn `(X)` into
`-X`, keep only digits, dots and minus signs, merge extra decimal points,
then `float(s) if s else None`; a `float` failure raises `ValueError`,
modelled as `Except.error`.  `str()` of a number reads back to the same
value, and `str(None)` cleans to the empty string. -/
def backendCleanAmount : RawValue → Except Unit (Option ℚ)
  | .num q => .ok (some q)
  | .other => .ok none
  | .txt s =>
    let t := pyStripChars s.toList
    let t2 := if (t.head? == some '(') && (t.getLast? == some ')') then
        '-' :: (t.drop 1).dropLast else t
    let u0 := t2.filter keepDigitDotMinus
    let u := if 1 < dotCount u0 then joinDots u0 else u0
    if u.isEmpty then .ok none
    else
      match pyFloatSigned u with
      | some q => .ok (some q)
      | none => .error ()

/-- State of the backend amounts loop: the ledger plus the loop-local
Python variable `year_int`, which keeps its previous binding across
iterations and is unbound before the first successful `int(year_str)`. -/
structure BState where
  ledger : BLedger
  lastYear : Option Int

/-- One `(year_str, amount)` pair of the backend consolidation loop,
`src/Backend/app.py` lines 783-820, with its exception flow.  A non-null
cleaned amount OVERWRITES the slot (line 816).  The
`except (ValueError, TypeError)` handler (lines 818-820) writes `None`
through `year_int`; when `int(year_str)` itself failed, `year_int` still
holds the previous pair's year — and when no pair has bound it yet, a
`NameError` escapes the handler. -/
def backendApplyPair (k : BKey) (st : BState) (p : String × RawValue) :
    Except String BState :=
  match pyIntOfString p.1 with
  | some y =>
    match backendCleanAmount p.2 with
    | .ok none => .ok ⟨st.ledger, some y⟩
    | .ok (some q) => .ok ⟨st.ledger.write k y (some q), some y⟩
    | .error _ => .ok ⟨st.ledger.write k y none, some y⟩
  | none =>
    match st.lastYear with
    | some y => .ok ⟨st.ledger.write k y none, st.lastYear⟩
    | none => .error ("NameError: year_int")

/-- The backend amounts loop over the pairs of one item. -/
def backendApplyAmounts (k : BKey) (st : BState) (pairs : List (String × RawValue)) :
    Except String BState :=
  pairs.foldlM (backendApplyPair k) st

/-- Concrete backend key and ledger used as the C8 failing input. -/
def bkey0 : BKey := ("Revenue", "Revenue", "Income")

def bledger0 : BLedger := ⟨[bkey0], fun _ _ => none⟩

/-- Claim C8 (code bug evidence): a `(year, value)` pair with a
non-numeric year is NOT dropped silently.  As the first pair, it makes a
`NameError` escape to the caller; after a successful pair, it erases that
pair's freshly stored value by writing `None` through the stale
`year_int`. -/
theorem backend_malformed_year_not_dropped_silently :
    backendApplyAmounts bkey0 ⟨bledger0, none⟩ [(("20x2"), .txt ("100"))] =
      .error ("NameError: year_int") ∧
    ((backendApplyAmounts bkey0 ⟨bledger0, none⟩
        [(("2022"), .txt ("100"))]).toOption.map
        (fun st => st.ledger.data bkey0 2022)) = some (some 100) ∧
    ((backendApplyAmounts bkey0 ⟨bledger0, none⟩
        [(("2022"), .txt ("100")), (("20x2"), .txt ("50"))]).toOption.map
        (fun st => st.ledger.data bkey0 2022)) = some none := by
  refine ⟨rfl, by decide, by decide⟩

/-! ### Exclusivity Resolver (`src/Backend/app.py` lines 822-901) -/

def SURPLUS : String := "Accumulated surplus"

def DEFICIT : String := "Accumulated deficit"

/-- The key scan of lines 835-841: every surplus/deficit description match
overwrites the candidate, and the loop breaks as soon as both are set. -/
def findPairKeys : List BKey → Option BKey → Option BKey → Option BKey × Option BKey
  | [], s, d => (s, d)
  | k :: rest, s, d =>
    let s2 := if k.desc = SURPLUS then some k else s
    let d2 := if k.desc = DEFICIT then some k else d
    if s2.isSome ∧ d2.isSome then (s2, d2) else findPairKeys rest s2 d2

/-- Write through an optional key (the `if actual_x_key:` guards). -/
def writeOpt (L : BLedger) (k : Option BKey) (y : Int) (v : Option ℚ) : BLedger :=
  match k with
  | none => L
  | some k => L.write k y v

/-- Per-year branch structure of lines 851-899 on the value pair
`(surplus_value, deficit_value)`, returning the new pair.  A branch that
assigns nothing returns the original value, which the caller writes back
unchanged — extensionally the same ledger. -/
def resolvePairYear : Option ℚ → Option ℚ → Option ℚ × Option ℚ
  | some sv, some dv =>
    if 0 < sv ∧ dv ≤ 0 then (some sv, none)
    else if 0 < dv ∧ sv ≤ 0 then (none, some dv)
    else if sv < 0 ∧ 0 ≤ dv then (none, some dv)
    else if dv < 0 ∧ 0 ≤ sv then (some sv, none)
    else if sv ≠ 0 then (some sv, none)
    else if dv ≠ 0 then (none, some dv)
    else (some sv, some dv)
  | none, some dv => if dv < 0 then (some (-dv), none) else (none, some dv)
  | some sv, none => if sv < 0 then (none, some (-sv)) else (some sv, none)
  | none, none => (none, none)

/-- One year of the resolver loop: locate the pair's keys, read both
values, apply the branch structure, write both slots back. -/
def resolveYear (L : BLedger) (y : Int) : BLedger :=
  let p := findPairKeys L.keys none none
  let sv := match p.1 with | some k => L.data k y | none => none
  let dv := match p.2 with | some k => L.data k y | none => none
  let r := resolvePairYear sv dv
  writeOpt (writeOpt L p.1 y r.1) p.2 y r.2

/-- The whole resolver pass, `for year in sorted_years` (lines 826-899). -/
def resolve_exclusivity (L : BLedger) (years : List Int) : BLedger :=
  years.foldl resolveYear L

/-! ### Frame lemmas for the resolver -/

lemma findPairKeys_desc (keys : List BKey) (s d : Option BKey)
    (hs : ∀ k, s = some k → k.desc = SURPLUS)
    (hd : ∀ k, d = some k → k.desc = DEFICIT) :
    (∀ k, (findPairKeys keys s d).1 = some k → k.desc = SURPLUS) ∧
      (∀ k, (findPairKeys keys s d).2 = some k → k.desc = DEFICIT) := by
  induction keys generalizing s d with
  | nil => exact ⟨hs, hd⟩
  | cons k ks ih =>
    have hs2 : ∀ k2, (if k.desc = SURPLUS then some k else s) = some k2 →
        k2.desc = SURPLUS := by
      intro k2 h2
      by_cases hk : k.desc = SURPLUS
      · rw [if_pos hk] at h2
        cases h2
        exact hk
      · rw [if_neg hk] at h2
        exact hs k2 h2
    have hd2 : ∀ k2, (if k.desc = DEFICIT then some k else d) = some k2 →
        k2.desc = DEFICIT := by
      intro k2 h2
      by_cases hk : k.desc = DEFICIT
      · rw [if_pos hk] at h2
        cases h2
        exact hk
      · rw [if_neg hk] at h2
        exact hd k2 h2
    simp only [findPairKeys]
    by_cases hb : (if k.desc = SURPLUS then some k else s).isSome ∧
        (if k.desc = DEFICIT then some k else d).isSome
    · rw [if_pos hb]
      exact ⟨hs2, hd2⟩
    · rw [if_neg hb]
      exact ih _ _ hs2 hd2

lemma writeOpt_keys (L : BLedger) (k : Option BKey) (y : Int) (v : Option ℚ) :
    (writeOpt L k y v).keys = L.keys := by
  cases k <;> rfl

lemma resolveYear_keys (L : BLedger) (y : Int) :
    (resolveYear L y).keys = L.keys := by
  unfold resolveYear
  rw [writeOpt_keys, writeOpt_keys]

lemma resolve_keys (L : BLedger) (ys : List Int) :
    (resolve_exclusivity L ys).keys = L.keys := by
  unfold resolve_exclusivity
  induction ys generalizing L with
  | nil => rfl
  | cons y ys ih => rw [List.foldl_cons, ih, resolveYear_keys]

lemma writeOpt_data_ne_year (L : BLedger) (k : Option BKey) (y : Int) (v : Option ℚ)
    (k2 : BKey) (y2 : Int) (hy : y2 ≠ y) :
    (writeOpt L k y v).data k2 y2 = L.data k2 y2 := by
  cases k with
  | none => rfl
  | some k => simp [writeOpt, BLedger.write, hy]

lemma writeOpt_data_ne_key (L : BLedger) (k : Option BKey) (y : Int) (v : Option ℚ)
    (k2 : BKey) (y2 : Int) (hk : ∀ k3, k = some k3 → k2 ≠ k3) :
    (writeOpt L k y v).data k2 y2 = L.data k2 y2 := by
  cases k with
  | none => rfl
  | some k => simp [writeOpt, BLedger.write, hk k rfl]

lemma resolveYear_data_ne_year (L : BLedger) (y : Int) (k : BKey) (y2 : Int)
    (hy : y2 ≠ y) :
    (resolveYear L y).data k y2 = L.data k y2 := by
  unfold resolveYear
  rw [writeOpt_data_ne_year _ _ _ _ _ _ hy, writeOpt_data_ne_year _ _ _ _ _ _ hy]

lemma resolveYear_data_other_desc (L : BLedger) (y : Int) (k : BKey) (y2 : Int)
    (h1 : k.desc ≠ SURPLUS) (h2 : k.desc ≠ DEFICIT) :
    (resolveYear L y).data k y2 = L.data k y2 := by
  obtain ⟨hp1, hp2⟩ := findPairKeys_desc L.keys none none
    (fun k h => by cases h) (fun k h => by cases h)
  unfold resolveYear
  rw [writeOpt_data_ne_key, writeOpt_data_ne_key]
  · intro k3 h3
    intro he
    exact h1 (he ▸ hp1 k3 h3)
  · intro k3 h3
    intro he
    exact h2 (he ▸ hp2 k3 h3)

lemma resolve_data_not_mem (L : BLedger) (ys : List Int) (k : BKey) (y : Int)
    (hy : y ∉ ys) :
    (resolve_exclusivity L ys).data k y = L.data k y := by
  unfold resolve_exclusivity
  induction ys generalizing L with
  | nil => rfl
  | cons y2 ys ih =>
    rw [List.foldl_cons, ih _ (fun h => hy (List.mem_cons_of_mem _ h)),
      resolveYear_data_ne_year _ _ _ _
        (fun h => hy (by rw [h]; exact List.mem_cons_self _ _))]

lemma resolveYear_congr_at (L1 L2 : BLedger) (y : Int)
    (hk : L1.keys = L2.keys) (hd : ∀ k, L1.data k y = L2.data k y) :
    ∀ k, (resolveYear L1 y).data k y = (resolveYear L2 y).data k y := by
  intro k
  simp only [resolveYear, hk]
  have hsv : (match (findPairKeys L2.keys none none).1 with
      | some k2 => L1.data k2 y
      | none => none) =
      (match (findPairKeys L2.keys none none).1 with
      | some k2 => L2.data k2 y
      | none => none) := by
    cases (findPairKeys L2.keys none none).1 with
    | none => rfl
    | some k2 => exact hd k2
  have hdv : (match (findPairKeys L2.keys none none).2 with
      | some k2 => L1.data k2 y
      | none => none) =
      (match (findPairKeys L2.keys none none).2 with
      | some k2 => L2.data k2 y
      | none => none) := by
    cases (findPairKeys L2.keys none none).2 with
    | none => rfl
    | some k2 => exact hd k2
  rw [hsv, hdv]
  cases (findPairKeys L2.keys none none).1 with
  | none =>
    cases (findPairKeys L2.keys none none).2 with
    | none => exact hd k
    | some dk =>
      simp only [writeOpt, BLedger.write]
      split_ifs
      · rfl
      · exact hd k
  | some sk =>
    cases (findPairKeys L2.keys none none).2 with
    | none =>
      simp only [writeOpt, BLedger.write]
      split_ifs
      · rfl
      · exact hd k
    | some dk =>
      simp only [writeOpt, BLedger.write]
      split_ifs
      · rfl
      · rfl
      · exact hd k

lemma resolveYear_data_other_key (L : BLedger) (y : Int) (sk dk k : BKey) (y2 : Int)
    (hf : findPairKeys L.keys none none = (some sk, some dk))
    (h1 : k ≠ sk) (h2 : k ≠ dk) :
    (resolveYear L y).data k y2 = L.data k y2 := by
  simp only [resolveYear, hf]
  rw [writeOpt_data_ne_key _ _ _ _ _ _ (fun k3 h3 => by injection h3 with h4; rw [← h4]; exact h2),
    writeOpt_data_ne_key _ _ _ _ _ _ (fun k3 h3 => by injection h3 with h4; rw [← h4]; exact h1)]

lemma resolve_data_at (L : BLedger) (ys : List Int) (y : Int)
    (hnd : ys.Nodup) (hy : y ∈ ys) (k : BKey) :
    (resolve_exclusivity L ys).data k y = (resolveYear L y).data k y := by
  obtain ⟨a, b, rfl⟩ := List.append_of_mem hy
  have hdisj := List.disjoint_of_nodup_append hnd
  have hya : y ∉ a := fun hmem => hdisj hmem (List.mem_cons_self _ _)
  have hyb : y ∉ b :=
    (List.nodup_cons.mp (hnd.sublist (List.sublist_append_right a _))).1
  show (List.foldl resolveYear L (a ++ y :: b)).data k y = _
  rw [List.foldl_append, List.foldl_cons]
  have h2 : (List.foldl resolveYear (resolveYear (List.foldl resolveYear L a) y) b).data k y
      = (resolveYear (List.foldl resolveYear L a) y).data k y :=
    resolve_data_not_mem _ b k y hyb
  rw [h2]
  exact resolveYear_congr_at _ _ y (resolve_keys L a)
    (fun k2 => resolve_data_not_mem L a k2 y hya) k

lemma findPairKeys_ne (L : BLedger) (sk dk : BKey)
    (hf : findPairKeys L.keys none none = (some sk, some dk)) : sk ≠ dk := by
  obtain ⟨h1, h2⟩ := findPairKeys_desc L.keys none none
    (fun k h => by cases h) (fun k h => by cases h)
  have hs := h1 sk (by rw [hf])
  have hd := h2 dk (by rw [hf])
  intro he
  have : SURPLUS = DEFICIT := by rw [← hs, he, hd]
  exact absurd this (by decide)

lemma resolveYear_at_pair (L : BLedger) (y : Int) (sk dk : BKey)
    (hf : findPairKeys L.keys none none = (some sk, some dk)) :
    (resolveYear L y).data sk y = (resolvePairYear (L.data sk y) (L.data dk y)).1 ∧
      (resolveYear L y).data dk y = (resolvePairYear (L.data sk y) (L.data dk y)).2 := by
  have hne := findPairKeys_ne L sk dk hf
  constructor
  · simp only [resolveYear, hf]
    simp [writeOpt, BLedger.write, hne]
  · simp only [resolveYear, hf]
    simp [writeOpt, BLedger.write]

/-! ### The branch table of the per-year rule -/

lemma rpy_surplus_pos (a b : ℚ) (h1 : 0 < a) (h2 : b ≤ 0) :
    resolvePairYear (some a) (some b) = (some a, none) := by
  simp only [resolvePairYear]
  rw [if_pos ⟨h1, h2⟩]

lemma rpy_deficit_pos (a b : ℚ) (h1 : 0 < b) (h2 : a ≤ 0) :
    resolvePairYear (some a) (some b) = (none, some b) := by
  simp only [resolvePairYear]
  rw [if_neg (by rintro ⟨c1, c2⟩; linarith), if_pos ⟨h1, h2⟩]

lemma rpy_both_pos (a b : ℚ) (h1 : 0 < a) (h2 : 0 < b) :
    resolvePairYear (some a) (some b) = (some a, none) := by
  simp only [resolvePairYear]
  rw [if_neg (by rintro ⟨c1, c2⟩; linarith), if_neg (by rintro ⟨c1, c2⟩; linarith),
    if_neg (by rintro ⟨c1, c2⟩; linarith), if_neg (by rintro ⟨c1, c2⟩; linarith),
    if_pos (ne_of_gt h1)]

lemma rpy_both_neg (a b : ℚ) (h1 : a < 0) (h2 : b < 0) :
    resolvePairYear (some a) (some b) = (some a, none) := by
  simp only [resolvePairYear]
  rw [if_neg (by rintro ⟨c1, c2⟩; linarith), if_neg (by rintro ⟨c1, c2⟩; linarith),
    if_neg (by rintro ⟨c1, c2⟩; linarith), if_neg (by rintro ⟨c1, c2⟩; linarith),
    if_pos (ne_of_lt h1)]

lemma rpy_both_zero : resolvePairYear (some 0) (some 0) = (some 0, some 0) := by
  simp only [resolvePairYear]
  rw [if_neg (by rintro ⟨c1, c2⟩; linarith), if_neg (by rintro ⟨c1, c2⟩; linarith),
    if_neg (by rintro ⟨c1, c2⟩; linarith), if_neg (by rintro ⟨c1, c2⟩; linarith),
    if_neg (by simp), if_neg (by simp)]

lemma rpy_sneg_dzero (a : ℚ) (h1 : a < 0) :
    resolvePairYear (some a) (some 0) = (none, some 0) := by
  simp only [resolvePairYear]
  rw [if_neg (by rintro ⟨c1, c2⟩; linarith), if_neg (by rintro ⟨c1, c2⟩; linarith),
    if_pos ⟨h1, le_refl 0⟩]

lemma rpy_szero_dneg (b : ℚ) (h2 : b < 0) :
    resolvePairYear (some 0) (some b) = (some 0, none) := by
  simp only [resolvePairYear]
  rw [if_neg (by rintro ⟨c1, c2⟩; linarith), if_neg (by rintro ⟨c1, c2⟩; linarith),
    if_neg (by rintro ⟨c1, c2⟩; linarith), if_pos ⟨h2, le_refl 0⟩]

lemma rpy_lone_deficit_neg (b : ℚ) (h : b < 0) :
    resolvePairYear none (some b) = (some (-b), none) := by
  simp only [resolvePairYear]
  rw [if_pos h]

lemma rpy_lone_deficit_nonneg (b : ℚ) (h : 0 ≤ b) :
    resolvePairYear none (some b) = (none, some b) := by
  simp only [resolvePairYear]
  rw [if_neg (not_lt.mpr h)]

lemma rpy_lone_surplus_neg (a : ℚ) (h : a < 0) :
    resolvePairYear (some a) none = (none, some (-a)) := by
  simp only [resolvePairYear]
  rw [if_pos h]

lemma rpy_lone_surplus_nonneg (a : ℚ) (h : 0 ≤ a) :
    resolvePairYear (some a) none = (some a, none) := by
  simp only [resolvePairYear]
  rw [if_neg (not_lt.mpr h)]

/-- The per-year rule maps its own output to itself, except on a pair of
two strictly negative values. -/
lemma rpy_idem (sv dv : Option ℚ)
    (h : ∀ a b : ℚ, sv = some a → dv = some b → ¬(a < 0 ∧ b < 0)) :
    resolvePairYear (resolvePairYear sv dv).1 (resolvePairYear sv dv).2 =
      resolvePairYear sv dv := by
  match sv, dv with
  | none, none => rfl
  | some a, none =>
    rcases lt_or_le a 0 with ha | ha
    · rw [rpy_lone_surplus_neg a ha]
      exact rpy_lone_deficit_nonneg (-a) (by linarith)
    · rw [rpy_lone_surplus_nonneg a ha]
      exact rpy_lone_surplus_nonneg a ha
  | none, some b =>
    rcases lt_or_le b 0 with hb | hb
    · rw [rpy_lone_deficit_neg b hb]
      exact rpy_lone_surplus_nonneg (-b) (by linarith)
    · rw [rpy_lone_deficit_nonneg b hb]
      exact rpy_lone_deficit_nonneg b hb
  | some a, some b =>
    rcases lt_trichotomy a 0 with ha | ha | ha
    · rcases lt_trichotomy b 0 with hb | hb | hb
      · exact absurd ⟨ha, hb⟩ (h a b rfl rfl)
      · subst hb
        rw [rpy_sneg_dzero a ha]
        exact rpy_lone_deficit_nonneg 0 (le_refl 0)
      · rw [rpy_deficit_pos a b hb (le_of_lt ha)]
        exact rpy_lone_deficit_nonneg b (le_of_lt hb)
    · subst ha
      rcases lt_trichotomy b 0 with hb | hb | hb
      · rw [rpy_szero_dneg b hb]
        exact rpy_lone_surplus_nonneg 0 (le_refl 0)
      · subst hb
        rw [rpy_both_zero]
        exact rpy_both_zero
      · rw [rpy_deficit_pos 0 b hb (le_refl 0)]
        exact rpy_lone_deficit_nonneg b (le_of_lt hb)
    · rcases lt_trichotomy b 0 with hb | hb | hb
      · rw [rpy_surplus_pos a b ha (le_of_lt hb)]
        exact rpy_lone_surplus_nonneg a (le_of_lt ha)
      · subst hb
        rw [rpy_surplus_pos a 0 ha (le_refl 0)]
        exact rpy_lone_surplus_nonneg a (le_of_lt ha)
      · rw [rpy_both_pos a b ha hb]
        exact rpy_lone_surplus_nonneg a (le_of_lt ha)

/-! ### Concrete pair keys and ledgers -/

def skey : BKey := (SURPLUS, "Equity", "Equity")

def dkey : BKey := (DEFICIT, "Equity", "Equity")

/-- Ledger holding surplus 0 and deficit 0 for 2021. -/
def zeroPairLedger : BLedger :=
  ⟨[skey, dkey], fun k y => if (k = skey ∨ k = dkey) ∧ y = 2021 then some 0 else none⟩

/-- Ledger holding surplus 500 and deficit -500 for 2021 (the spec's
exclusivity example). -/
def posNegLedger : BLedger :=
  ⟨[skey, dkey], fun k y =>
    if k = skey ∧ y = 2021 then some 500
    else if k = dkey ∧ y = 2021 then some (-500) else none⟩

/-- Ledger holding only a deficit of -500 for 2021. -/
def loneDeficitLedger : BLedger :=
  ⟨[skey, dkey], fun k y => if k = dkey ∧ y = 2021 then some (-500) else none⟩

/-- Ledger holding surplus -5 and deficit -3 for 2021. -/
def negPairLedger : BLedger :=
  ⟨[skey, dkey], fun k y =>
    if k = skey ∧ y = 2021 then some (-5)
    else if k = dkey ∧ y = 2021 then some (-3) else none⟩

/-! ### Claims about the Exclusivity Resolver -/

/-- Claim C2 counterexample: with surplus 0 and deficit 0 for 2021 the
resolver clears NOTHING — both slots still hold 0 afterwards, while the
claim demands the deficit slot be absent. -/
theorem resolver_both_zero_keeps_deficit :
    (resolve_exclusivity zeroPairLedger [2021]).data dkey 2021 = some 0 ∧
      (resolve_exclusivity zeroPairLedger [2021]).data skey 2021 = some 0 ∧
      (resolve_exclusivity zeroPairLedger [2021]).data dkey 2021 ≠ none := by
  refine ⟨by decide, by decide, by decide⟩

/-- Claim C2 as amended: per year, with both slots non-null, the
algebraically positive side wins and the other is cleared; with both
strictly positive or both strictly negative the surplus side is retained
and the deficit cleared; with both exactly zero BOTH slots are left
unchanged (nothing is cleared). -/
theorem resolver_positive_wins_amended (L : BLedger) (ys : List Int) (y : Int)
    (sk dk : BKey) (hnd : ys.Nodup) (hy : y ∈ ys)
    (hf : findPairKeys L.keys none none = (some sk, some dk))
    (a b : ℚ) (hs : L.data sk y = some a) (hd : L.data dk y = some b) :
    ((0 < a ∧ b ≤ 0) → (resolve_exclusivity L ys).data sk y = some a ∧
        (resolve_exclusivity L ys).data dk y = none) ∧
    ((0 < b ∧ a ≤ 0) → (resolve_exclusivity L ys).data sk y = none ∧
        (resolve_exclusivity L ys).data dk y = some b) ∧
    ((0 < a ∧ 0 < b) → (resolve_exclusivity L ys).data sk y = some a ∧
        (resolve_exclusivity L ys).data dk y = none) ∧
    ((a < 0 ∧ b < 0) → (resolve_exclusivity L ys).data sk y = some a ∧
        (resolve_exclusivity L ys).data dk y = none) ∧
    ((a = 0 ∧ b = 0) → (resolve_exclusivity L ys).data sk y = some a ∧
        (resolve_exclusivity L ys).data dk y = some b) := by
  obtain ⟨e1, e2⟩ := resolveYear_at_pair L y sk dk hf
  have hs' := resolve_data_at L ys y hnd hy sk
  have hd' := resolve_data_at L ys y hnd hy dk
  rw [e1, hs, hd] at hs'
  rw [e2, hs, hd] at hd'
  refine ⟨fun hc => ?_, fun hc => ?_, fun hc => ?_, fun hc => ?_, fun hc => ?_⟩
  · rw [rpy_surplus_pos a b hc.1 hc.2] at hs' hd'
    exact ⟨hs', hd'⟩
  · rw [rpy_deficit_pos a b hc.1 hc.2] at hs' hd'
    exact ⟨hs', hd'⟩
  · rw [rpy_both_pos a b hc.1 hc.2] at hs' hd'
    exact ⟨hs', hd'⟩
  · rw [rpy_both_neg a b hc.1 hc.2] at hs' hd'
    exact ⟨hs', hd'⟩
  · obtain ⟨h1, h2⟩ := hc
    subst h1
    subst h2
    rw [rpy_both_zero] at hs' hd'
    exact ⟨hs', hd'⟩

/-- Witness for the amended C2 at the spec example: surplus 500 retained,
deficit slot cleared for 2021. -/
theorem resolver_positive_wins_amended_witness :
    (resolve_exclusivity posNegLedger [2021]).data skey 2021 = some 500 ∧
      (resolve_exclusivity posNegLedger [2021]).data dkey 2021 = none :=
  (resolver_positive_wins_amended posNegLedger [2021] 2021 skey dkey
    (by decide) (by decide) (by decide) 500 (-500) (by decide) (by decide)).1
    ⟨by decide, by decide⟩

/-- Claim C5: per year, a lone negative deficit becomes a positive surplus
of the same magnitude with the deficit slot cleared, and symmetrically a
lone negative surplus becomes a positive deficit. -/
theorem resolver_converts_lone_negative (L : BLedger) (ys : List Int) (y : Int)
    (sk dk : BKey) (hnd : ys.Nodup) (hy : y ∈ ys)
    (hf : findPairKeys L.keys none none = (some sk, some dk)) :
    (∀ b : ℚ, L.data sk y = none → L.data dk y = some b → b < 0 →
      (resolve_exclusivity L ys).data sk y = some (-b) ∧
        (resolve_exclusivity L ys).data dk y = none) ∧
    (∀ a : ℚ, L.data dk y = none → L.data sk y = some a → a < 0 →
      (resolve_exclusivity L ys).data sk y = none ∧
        (resolve_exclusivity L ys).data dk y = some (-a)) := by
  obtain ⟨e1, e2⟩ := resolveYear_at_pair L y sk dk hf
  have hs' := resolve_data_at L ys y hnd hy sk
  have hd' := resolve_data_at L ys y hnd hy dk
  rw [e1] at hs'
  rw [e2] at hd'
  constructor
  · intro b h1 h2 hb
    rw [h1, h2, rpy_lone_deficit_neg b hb] at hs' hd'
    exact ⟨hs', hd'⟩
  · intro a h1 h2 ha
    rw [h1, h2, rpy_lone_surplus_neg a ha] at hs' hd'
    exact ⟨hs', hd'⟩

/-- Witness for C5: a lone deficit of -500 for 2021 resolves to surplus
500 with the deficit slot cleared. -/
theorem resolver_converts_lone_negative_witness :
    (resolve_exclusivity loneDeficitLedger [2021]).data skey 2021 = some 500 ∧
      (resolve_exclusivity loneDeficitLedger [2021]).data dkey 2021 = none := by
  have h := (resolver_converts_lone_negative loneDeficitLedger [2021] 2021 skey dkey
    (by decide) (by decide) (by decide)).1 (-500) (by decide) (by decide) (by decide)
  exact ⟨h.1.trans (by norm_num), h.2⟩

/-- Claim C9 counterexample: on surplus -5 / deficit -3 for 2021 the first
pass keeps the negative surplus and clears the deficit; the second pass
then converts it, so the resolver is not idempotent. -/
theorem resolver_not_idempotent :
    (resolve_exclusivity negPairLedger [2021]).data skey 2021 = some (-5) ∧
      (resolve_exclusivity negPairLedger [2021]).data dkey 2021 = none ∧
      (resolve_exclusivity (resolve_exclusivity negPairLedger [2021]) [2021]).data
        skey 2021 = none ∧
      (resolve_exclusivity (resolve_exclusivity negPairLedger [2021]) [2021]).data
        dkey 2021 = some 5 := by
  refine ⟨by decide, by decide, by decide, by decide⟩

/-- Claim C9 as amended: the resolver is idempotent on every ledger in
which no year holds strictly negative values in BOTH slots of the pair;
on such a both-negative year the second application makes a further
change. -/
theorem resolver_idempotent_amended (L : BLedger) (ys : List Int)
    (sk dk : BKey) (hnd : ys.Nodup)
    (hf : findPairKeys L.keys none none = (some sk, some dk))
    (h : ∀ y ∈ ys, ∀ a b : ℚ, L.data sk y = some a → L.data dk y = some b →
      ¬(a < 0 ∧ b < 0)) :
    ∀ k y2, (resolve_exclusivity (resolve_exclusivity L ys) ys).data k y2 =
      (resolve_exclusivity L ys).data k y2 := by
  intro k y2
  by_cases hm : y2 ∈ ys
  · have hk : (resolve_exclusivity L ys).keys = L.keys := resolve_keys L ys
    have hf2 : findPairKeys (resolve_exclusivity L ys).keys none none =
        (some sk, some dk) := by rw [hk]; exact hf
    have hMdata : ∀ k2, (resolve_exclusivity L ys).data k2 y2 =
        (resolveYear L y2).data k2 y2 := fun k2 => resolve_data_at L ys y2 hnd hm k2
    have hL2 := resolve_data_at (resolve_exclusivity L ys) ys y2 hnd hm k
    rw [hL2]
    by_cases hks : k = sk
    · subst hks
      obtain ⟨f1, _⟩ := resolveYear_at_pair (resolve_exclusivity L ys) y2 k dk hf2
      obtain ⟨g1, g2⟩ := resolveYear_at_pair L y2 k dk hf
      rw [f1, hMdata k, hMdata dk, g1, g2]
      rw [rpy_idem (L.data k y2) (L.data dk y2) (fun a b ha hb => h y2 hm a b ha hb)]
    · by_cases hkd : k = dk
      · subst hkd
        obtain ⟨_, f2⟩ := resolveYear_at_pair (resolve_exclusivity L ys) y2 sk k hf2
        obtain ⟨g1, g2⟩ := resolveYear_at_pair L y2 sk k hf
        rw [f2, hMdata sk, hMdata k, g1, g2]
        rw [rpy_idem (L.data sk y2) (L.data k y2) (fun a b ha hb => h y2 hm a b ha hb)]
      · rw [resolveYear_data_other_key _ y2 sk dk k y2 hf2 hks hkd]
  · rw [resolve_data_not_mem _ ys k y2 hm]

/-- Witness for the amended C9 on the 500 / -500 ledger, read back at the
surplus slot for 2021. -/
theorem resolver_idempotent_amended_witness :
    (resolve_exclusivity (resolve_exclusivity posNegLedger [2021]) [2021]).data
        skey 2021 =
      (resolve_exclusivity posNegLedger [2021]).data skey 2021 :=
  resolver_idempotent_amended posNegLedger [2021] skey dkey (by decide) (by decide)
    (fun y hy a b ha hb hcon => by
      have hyy : y = 2021 := by
        cases hy with
        | head => rfl
        | tail _ h2 => cases h2
      subst hyy
      have h500 : posNegLedger.data skey 2021 = some 500 := by decide
      rw [h500] at ha
      have ha2 := Option.some.inj ha
      rw [← ha2] at hcon
      exact absurd hcon.1 (by decide)) skey 2021

/-- Claim C10: the resolver pass leaves every key whose description is
neither member of the exclusive pair untouched, and never changes the key
set. -/
theorem resolver_preserves_other_descriptions (L : BLedger) (ys : List Int) (k : BKey)
    (h1 : k.desc ≠ SURPLUS) (h2 : k.desc ≠ DEFICIT) :
    (∀ y, (resolve_exclusivity L ys).data k y = L.data k y) ∧
      (resolve_exclusivity L ys).keys = L.keys := by
  constructor
  · intro y
    show (List.foldl resolveYear L ys).data k y = L.data k y
    induction ys generalizing L with
    | nil => rfl
    | cons y2 ys ih =>
      rw [List.foldl_cons, ih, resolveYear_data_other_desc _ _ _ _ h1 h2]
  · exact resolve_keys L ys

/-- Witness for C10: the Reserves key of the 500 / -500 ledger is
untouched and the key set is unchanged. -/
theorem resolver_preserves_other_descriptions_witness :
    (resolve_exclusivity posNegLedger [2021]).data (("Reserves"), ("Equity"), ("Equity"))
        2021 =
      posNegLedger.data (("Reserves"), ("Equity"), ("Equity")) 2021 ∧
    (resolve_exclusivity posNegLedger [2021]).keys = posNegLedger.keys :=
  ⟨(resolver_preserves_other_descriptions posNegLedger [2021]
      (("Reserves"), ("Equity"), ("Equity")) (by decide) (by decide)).1 2021,
   (resolver_preserves_other_descriptions posNegLedger [2021]
      (("Reserves"), ("Equity"), ("Equity")) (by decide) (by decide)).2⟩

/-! ### String ordering and sorting

Python compares strings lexicographically by code point; `sorted` is
ascending.  The backend sorts subcategory names with
`key=(0 if x != "N/A" else 1, x)` and the unscheduled bucket by
description. -/

/-- Lexicographic code-point comparison of character lists (Python `<=`). -/
def listLe : List Char → List Char → Bool
  | [], _ => true
  | _ :: _, [] => false
  | a :: as, b :: bs => if a = b then listLe as bs else decide (a < b)

/-- Python string `<=`. -/
def strLe (s t : String) : Bool := listLe s.toList t.toList

lemma listLe_total (a b : List Char) : listLe a b = true ∨ listLe b a = true := by
  induction a generalizing b with
  | nil => exact Or.inl rfl
  | cons x xs ih =>
    cases b with
    | nil => exact Or.inr rfl
    | cons y ys =>
      by_cases hxy : x = y
      · subst hxy
        simp only [listLe, if_pos rfl]
        exact ih ys
      · rcases lt_or_gt_of_ne hxy with h | h
        · exact Or.inl (by simp [listLe, hxy, h])
        · exact Or.inr (by simp [listLe, Ne.symm hxy, h])

lemma listLe_trans (a b c : List Char) (h1 : listLe a b = true)
    (h2 : listLe b c = true) : listLe a c = true := by
  induction a generalizing b c with
  | nil => rfl
  | cons x xs ih =>
    cases b with
    | nil => exact absurd h1 (by simp [listLe])
    | cons y ys =>
      cases c with
      | nil => exact absurd h2 (by simp [listLe])
      | cons z zs =>
        simp only [listLe] at h1 h2 ⊢
        by_cases hxy : x = y
        · subst hxy
          rw [if_pos rfl] at h1
          by_cases hyz : x = z
          · subst hyz
            rw [if_pos rfl] at h2
            rw [if_pos rfl]
            exact ih ys zs h1 h2
          · rw [if_neg hyz] at h2
            rw [if_neg hyz]
            exact h2
        · rw [if_neg hxy] at h1
          have hlt1 : x < y := of_decide_eq_true h1
          by_cases hyz : y = z
          · subst hyz
            rw [if_neg hxy]
            exact h1
          · rw [if_neg hyz] at h2
            have hlt2 : y < z := of_decide_eq_true h2
            have hxz : x < z := lt_trans hlt1 hlt2
            rw [if_neg (ne_of_lt hxz)]
            exact decide_eq_true hxz

lemma strLe_total (a b : String) : strLe a b = true ∨ strLe b a = true :=
  listLe_total a.toList b.toList

lemma strLe_trans (a b c : String) (h1 : strLe a b = true) (h2 : strLe b c = true) :
    strLe a c = true :=
  listLe_trans a.toList b.toList c.toList h1 h2

/-- Insertion into a sorted list by a boolean comparison (the model of
Python's stable ascending `sorted`). -/
def insertOrd {α : Type} (le : α → α → Bool) (a : α) : List α → List α
  | [] => [a]
  | b :: bs => if le a b then a :: b :: bs else b :: insertOrd le a bs

/-- Insertion sort by a boolean comparison. -/
def sortOrd {α : Type} (le : α → α → Bool) : List α → List α
  | [] => []
  | a :: as => insertOrd le a (sortOrd le as)

lemma mem_insertOrd {α : Type} (le : α → α → Bool) (a x : α) (l : List α) :
    x ∈ insertOrd le a l ↔ x = a ∨ x ∈ l := by
  induction l with
  | nil => simp [insertOrd]
  | cons b bs ih =>
    simp only [insertOrd]
    by_cases h : le a b
    · rw [if_pos h]
      simp
    · rw [if_neg h]
      simp only [List.mem_cons, ih]
      tauto

lemma mem_sortOrd {α : Type} (le : α → α → Bool) (x : α) (l : List α) :
    x ∈ sortOrd le l ↔ x ∈ l := by
  induction l with
  | nil => simp [sortOrd]
  | cons a as ih =>
    simp only [sortOrd, mem_insertOrd, List.mem_cons, ih]

lemma pairwise_insertOrd {α : Type} (le : α → α → Bool)
    (htot : ∀ a b, le a b = true ∨ le b a = true)
    (htrans : ∀ a b c, le a b = true → le b c = true → le a c = true)
    (a : α) (l : List α) (hl : l.Pairwise (fun x y => le x y = true)) :
    (insertOrd le a l).Pairwise (fun x y => le x y = true) := by
  induction l with
  | nil => simp [insertOrd]
  | cons b bs ih =>
    rcases List.pairwise_cons.mp hl with ⟨hb, hbs⟩
    simp only [insertOrd]
    by_cases h : le a b
    · rw [if_pos h]
      refine List.pairwise_cons.mpr ⟨?_, hl⟩
      intro x hx
      rcases List.mem_cons.mp hx with rfl | hx2
      · exact h
      · exact htrans a b x h (hb x hx2)
    · rw [if_neg h]
      refine List.pairwise_cons.mpr ⟨?_, ih hbs⟩
      intro x hx
      rcases (mem_insertOrd le a x bs).mp hx with rfl | hx2
      · rcases htot x b with h2 | h2
        · exact absurd h2 h
        · exact h2
      · exact hb x hx2

lemma pairwise_sortOrd {α : Type} (le : α → α → Bool)
    (htot : ∀ a b, le a b = true ∨ le b a = true)
    (htrans : ∀ a b c, le a b = true → le b c = true → le a c = true)
    (l : List α) : (sortOrd le l).Pairwise (fun x y => le x y = true) := by
  induction l with
  | nil => simp [sortOrd]
  | cons a as ih => exact pairwise_insertOrd le htot htrans a (sortOrd le as) ih

/-! ### Schema Registry and Report Projector (`src/Backend/app.py`)

`MASTER_STRUCTURE` is the backend's registry (lines 197-224), including
the `ABSA` entry of the Current Assets list.  The projector is the
row-emission logic of `generate_excel` (lines 905-1062); category and
subcategory HEADER rows are presentation only and are not modelled — the
claims are about description rows. -/

def MASTER_STRUCTURE : List (String × List (String × List String)) := [
  ("Assets", [
    ("Non-Current Assets", [("Property, plant and equipment"), ("Other financial assets")]),
    ("Current Assets", [("Trade and other receivables"), ("Cash and Cash Equivalents"),
      ("Cash on hand"), ("Bank balances"), ("Short-term deposits"), ("ABSA")]),
    ("N/A", [("Total Assets")])]),
  ("Equity", [
    ("Equity", [("Reserves"), ("Accumulated surplus"), ("Accumulated deficit"),
      ("Accumulated Funds")]),
    ("N/A", [("Total Equity")])]),
  ("Liabilities", [
    ("Non-Current Liabilities", [("Deferred tax liability")]),
    ("Current Liabilities", [("Trade and Other Payables"), ("Provisions"),
      ("Amounts received in advance"), ("Deposits received"), ("Bank overdraft"),
      ("Legal proceedings")]),
    ("N/A", [("Total Liabilities")])]),
  ("Revenue", [
    ("Income", [("Revenue"), ("Levies received"), ("Fines"), ("Water recovered"),
      ("Ombudsman levy"), ("Electricity recovered"), ("Garage levies"),
      ("Security levies"), ("Other income"), ("Tower rental"),
      ("Insurance claims received"), ("Special levy"), ("Interest received"),
      ("Fair value adjustments"), ("Investment revenue"), ("Rental Income"),
      ("Interest income"), ("CSOS levies"), ("Garbage levies")]),
    ("N/A", [("Total Income")])]),
  ("Expenses", [
    ("Operating Expenses", [("Operating expenses"), ("Accounting fees"),
      ("Bank charges"), ("CSOS"), ("Cleaning"),
      ("Depreciation, amortisation and impairments"), ("Electricity"),
      ("Employee costs"), ("Garden services"), ("Insurance"), ("Management fees"),
      ("Other expenses"), ("Petrol and oil"), ("Printing and stationery"),
      ("Protective clothing"), ("Repairs and maintenance"), ("Security"),
      ("Auditor\x27s remuneration"), ("Bad debts"),
      ("Consulting and professional fees"), ("Compensation commissioner"),
      ("Employee costs - salaried staff"), ("Municipal charges"),
      ("Electricity - recovered from members"), ("Water - recovered from members"),
      ("Maintenance"), ("Elevator maintenance"), ("Basic (Employee Cost)"),
      ("UIF (Employee Cost)")]),
    ("N/A", [("Total Operating Expenses")])]),
  ("Other Financial Items", [
    ("N/A", [("Surplus (deficit) for the year"),
      ("Total comprehensive income (loss) for the year"), ("Surplus before taxation"),
      ("Adjustments for"), ("Movements in provisions"), ("Changes in working capital"),
      ("Net provisions"), ("Non provision of tax"), ("Taxation"),
      ("Cash generated from (used in) operations"), ("(Deficit) surplus for the year")])])]

/-- The category order of the output walk (line 928). -/
def categoryDisplayOrder : List String :=
  [("Assets"), ("Equity"), ("Liabilities"), ("Revenue"), ("Expenses"),
   ("Other Financial Items")]

/-- `MASTER_STRUCTURE.get(category_name)`; a missing category contributes
nothing (`if not subcategories_dict: continue`). -/
def subsOf (cat : String) : List (String × List String) :=
  (MASTER_STRUCTURE.lookup cat).getD []

/-- `subcategories_dict.get(subcategory_name)` with the same skip. -/
def descsOf (subs : List (String × List String)) (sub : String) : List String :=
  (subs.lookup sub).getD []

/-- Sort key for subcategory names: `(0 if x != "N/A" else 1, x)`. -/
def subRank (s : String) : ℕ := if s = "N/A" then 1 else 0

def subLe (s t : String) : Bool :=
  decide (subRank s < subRank t) || (decide (subRank s = subRank t) && strLe s t)

/-- Every canonical description of the registry. -/
def masterDescs : List String :=
  (MASTER_STRUCTURE.map (fun cs => (cs.2.map Prod.snd).flatten)).flatten

/-- Membership of a description in the registry (`description in
master_descs` for some subcategory list). -/
def inMaster (d : String) : Bool := decide (d ∈ masterDescs)

/-- The six total labels excluded from the unscheduled bucket
(lines 919-920). -/
def excludedTotals : List String :=
  [("total assets"), ("total equity"), ("total liabilities"),
   ("total equity and liabilities"), ("total income"), ("total operating expenses")]

def isExcludedTotal (d : String) : Bool := decide (pyLower d ∈ excludedTotals)

/-- True when some year slot of the key holds a value
(`any(v is not None for v in year_data.values())`). -/
def hasData (L : BLedger) (k : BKey) (years : List Int) : Bool :=
  years.any (fun y => (L.data k y).isSome)

/-- One output row: the description cell and the year value cells. -/
structure Row where
  description : String
  values : List (Option ℚ)
deriving DecidableEq

def rowFor (L : BLedger) (years : List Int) (k : BKey) : Row :=
  ⟨k.desc, years.map (L.data k)⟩

/-- The schema walk: categories in display order, subcategories sorted with
`N/A` last, descriptions in registry order, as ledger keys. -/
def schemaTriples : List BKey :=
  (categoryDisplayOrder.map (fun cat =>
    ((sortOrd subLe ((subsOf cat).map Prod.fst)).map (fun sub =>
      (descsOf (subsOf cat) sub).map (fun d => ((d, cat, sub) : BKey)))).flatten)).flatten

/-- Schema-driven rows: one row per walked key that is present with at
least one non-null year value (lines 989-1021). -/
def schemaRows (L : BLedger) (years : List Int) : List Row :=
  (schemaTriples.map (fun k =>
    if k ∈ L.keys ∧ hasData L k years = true then [rowFor L years k] else [])).flatten

/-- The unscheduled keys: ledger keys whose description is not in the
registry and not an excluded total, sorted by description
(lines 905-924). -/
def unscheduledKeys (L : BLedger) : List BKey :=
  sortOrd (fun a b => strLe a.desc b.desc)
    (L.keys.filter (fun k => !(inMaster k.desc) && !(isExcludedTotal k.desc)))

/-- Unscheduled rows: those unscheduled keys with data (lines 1044-1060). -/
def unscheduledRows (L : BLedger) (years : List Int) : List Row :=
  ((unscheduledKeys L).filter (fun k => hasData L k years)).map (rowFor L years)

/-- The full projected row sequence: schema rows, then the unscheduled
bucket. -/
def projectRows (L : BLedger) (years : List Int) : List Row :=
  schemaRows L years ++ unscheduledRows L years

/-! ### Membership lemmas for the projector -/

lemma lookup_mem {β : Type} (l : List (String × β)) (a : String) (b : β)
    (h : l.lookup a = some b) : (a, b) ∈ l := by
  induction l with
  | nil => cases h
  | cons p ps ih =>
    rcases p with ⟨k, v⟩
    by_cases hk : (a == k) = true
    · simp only [List.lookup, hk] at h
      cases h
      have ha : a = k := eq_of_beq hk
      rw [ha]
      exact List.mem_cons_self _ _
    · have hk2 : (a == k) = false := by
        revert hk
        cases (a == k) <;> simp
      simp only [List.lookup, hk2] at h
      exact List.mem_cons_of_mem _ (ih h)

lemma mem_if_singleton {c : Prop} [Decidable c] (r x : Row) :
    r ∈ (if c then [x] else []) ↔ c ∧ r = x := by
  split_ifs with h <;> simp [h]

lemma mem_masterDescs_of (cat sub d : String) (subs : List (String × List String))
    (descs : List String) (hsubs : MASTER_STRUCTURE.lookup cat = some subs)
    (hdesc : subs.lookup sub = some descs) (hmem : d ∈ descs) :
    d ∈ masterDescs := by
  have h1 := lookup_mem _ _ _ hsubs
  have h2 := lookup_mem _ _ _ hdesc
  simp only [masterDescs, List.mem_flatten, List.mem_map]
  exact ⟨(subs.map Prod.snd).flatten, ⟨(cat, subs), h1, rfl⟩,
    List.mem_flatten.mpr ⟨descs, List.mem_map.mpr ⟨(sub, descs), h2, rfl⟩, hmem⟩⟩

lemma mem_schemaTriples_of (cat sub d : String) (subs : List (String × List String))
    (descs : List String) (hcat : cat ∈ categoryDisplayOrder)
    (hsubs : MASTER_STRUCTURE.lookup cat = some subs)
    (hdesc : subs.lookup sub = some descs) (hmem : d ∈ descs) :
    ((d, cat, sub) : BKey) ∈ schemaTriples := by
  have hsubsOf : subsOf cat = subs := by rw [subsOf, hsubs]; rfl
  have hdescsOf : descsOf (subsOf cat) sub = descs := by
    rw [hsubsOf, descsOf, hdesc]; rfl
  have hsubmem : sub ∈ (subsOf cat).map Prod.fst := by
    rw [hsubsOf]
    exact List.mem_map.mpr ⟨(sub, descs), lookup_mem _ _ _ hdesc, rfl⟩
  simp only [schemaTriples, List.mem_flatten, List.mem_map]
  refine ⟨((sortOrd subLe ((subsOf cat).map Prod.fst)).map (fun s =>
      (descsOf (subsOf cat) s).map (fun d2 => ((d2, cat, s) : BKey)))).flatten,
    ⟨cat, hcat, rfl⟩, ?_⟩
  refine List.mem_flatten.mpr ⟨(descsOf (subsOf cat) sub).map
      (fun d2 => ((d2, cat, sub) : BKey)),
    List.mem_map.mpr ⟨sub, (mem_sortOrd _ _ _).mpr hsubmem, rfl⟩, ?_⟩
  rw [hdescsOf]
  exact List.mem_map.mpr ⟨d, hmem, rfl⟩

lemma mem_schemaRows (L : BLedger) (years : List Int) (r : Row) :
    r ∈ schemaRows L years ↔ ∃ k ∈ schemaTriples,
      (k ∈ L.keys ∧ hasData L k years = true) ∧ r = rowFor L years k := by
  simp only [schemaRows, List.mem_flatten, List.mem_map]
  constructor
  · rintro ⟨l, ⟨k, hk, rfl⟩, hr⟩
    rcases (mem_if_singleton r (rowFor L years k)).mp hr with ⟨hc, rfl⟩
    exact ⟨k, hk, hc, rfl⟩
  · rintro ⟨k, hk, hc, rfl⟩
    exact ⟨_, ⟨k, hk, rfl⟩, (mem_if_singleton _ _).mpr ⟨hc, rfl⟩⟩

lemma mem_unscheduledRows (L : BLedger) (years : List Int) (r : Row) :
    r ∈ unscheduledRows L years ↔ ∃ k, k ∈ L.keys ∧ inMaster k.desc = false ∧
      isExcludedTotal k.desc = false ∧ hasData L k years = true ∧
      r = rowFor L years k := by
  simp only [unscheduledRows, List.mem_map, List.mem_filter, unscheduledKeys,
    mem_sortOrd, Bool.and_eq_true, Bool.not_eq_true']
  constructor
  · rintro ⟨k, ⟨⟨hk, hm, hx⟩, hd⟩, rfl⟩
    exact ⟨k, hk, hm, hx, hd, rfl⟩
  · rintro ⟨k, hk, hm, hx, hd, rfl⟩
    exact ⟨k, ⟨⟨hk, hm, hx⟩, hd⟩, rfl⟩

/-! ### Claims about the Report Projector -/

/-- Claim C4: for a schema-listed canonical description, the projection
emits a row with that description exactly when its ledger slot is present
with at least one non-null year value.  The `hstore` hypothesis is the
consolidation invariant that a schema-listed description is only ever
stored under its schema key (`src/Backend/app.py` lines 759-768). -/
theorem schema_row_emitted_iff_nonnull (L : BLedger) (years : List Int)
    (cat sub desc : String) (subs : List (String × List String))
    (descs : List String)
    (hcat : cat ∈ categoryDisplayOrder)
    (hsubs : MASTER_STRUCTURE.lookup cat = some subs)
    (hdesc : subs.lookup sub = some descs)
    (hmem : desc ∈ descs)
    (hstore : ∀ k2, k2 ∈ L.keys → k2.desc = desc → k2 = (desc, cat, sub)) :
    (∃ r ∈ projectRows L years, r.description = desc) ↔
      ((desc, cat, sub) ∈ L.keys ∧
        hasData L (desc, cat, sub) years = true) := by
  constructor
  · rintro ⟨r, hr, hrd⟩
    rcases List.mem_append.mp hr with hr1 | hr2
    · rcases (mem_schemaRows L years r).mp hr1 with ⟨k, hkt, ⟨hk, hd⟩, rfl⟩
      have hkd : k.desc = desc := hrd
      have hkey := hstore k hk hkd
      rw [hkey] at hk hd
      exact ⟨hk, hd⟩
    · rcases (mem_unscheduledRows L years r).mp hr2 with ⟨k, hk, hm, _, _, rfl⟩
      have hkd : k.desc = desc := hrd
      rw [hkd] at hm
      have : desc ∈ masterDescs := mem_masterDescs_of cat sub desc subs descs hsubs hdesc hmem
      rw [inMaster, decide_eq_false_iff_not] at hm
      exact absurd this hm
  · rintro ⟨hk, hd⟩
    refine ⟨rowFor L years (desc, cat, sub), ?_, rfl⟩
    exact List.mem_append.mpr (Or.inl ((mem_schemaRows L years _).mpr
      ⟨(desc, cat, sub), mem_schemaTriples_of cat sub desc subs descs hcat hsubs hdesc hmem,
        ⟨hk, hd⟩, rfl⟩))

/-- Concrete ledger for the C4 witness: Reserves holds 300 for 2021. -/
def reservesLedger : BLedger :=
  ⟨[(("Reserves"), ("Equity"), ("Equity"))],
   fun k y => if k = (("Reserves"), ("Equity"), ("Equity")) ∧ y = 2021
     then some 300 else none⟩

/-- Witness for C4 at the Reserves row of the Equity block. -/
theorem schema_row_emitted_iff_nonnull_witness :
    (∃ r ∈ projectRows reservesLedger [2021], r.description = ("Reserves")) ↔
      ((("Reserves"), ("Equity"), ("Equity")) ∈ reservesLedger.keys ∧
        hasData reservesLedger (("Reserves"), ("Equity"), ("Equity")) [2021] = true) :=
  schema_row_emitted_iff_nonnull reservesLedger [2021] ("Equity") ("Equity") ("Reserves")
    [(("Equity"), [("Reserves"), ("Accumulated surplus"), ("Accumulated deficit"),
        ("Accumulated Funds")]),
     (("N/A"), [("Total Equity")])]
    [("Reserves"), ("Accumulated surplus"), ("Accumulated deficit"),
      ("Accumulated Funds")]
    (by decide) (by decide) (by decide) (by decide) (by decide)

/-- Concrete ledger for the C3 counterexample: an unscheduled
`Total Equity and Liabilities` with data for 2022. -/
def telKey : BKey := (("Total Equity and Liabilities"), ("Equity"), ("N/A"))

def telLedger : BLedger :=
  ⟨[telKey], fun k y => if k = telKey ∧ y = 2022 then some 100 else none⟩

/-- Claim C3 counterexample: `Total Equity and Liabilities` is absent from
the Schema Registry, present in the ledger with a non-null 2022 value, and
yet the projection emits NO row at all — the description is silently
dropped by the excluded-totals filter (lines 919-920). -/
theorem unscheduled_total_dropped :
    inMaster ("Total Equity and Liabilities") = false ∧
      telKey ∈ telLedger.keys ∧
      hasData telLedger telKey [2022] = true ∧
      projectRows telLedger [2022] = [] := by
  refine ⟨by decide, by decide, by decide, by decide⟩

/-- Claim C3 as amended: after all schema rows the projection emits every
ledger description that has data, is absent from the Schema Registry AND
whose lower-cased form is not one of the six excluded total labels, as a
trailing group sorted by description; descriptions failing the last
condition are dropped. -/
theorem unscheduled_rows_amended (L : BLedger) (years : List Int) (k : BKey)
    (hk : k ∈ L.keys) (hm : inMaster k.desc = false)
    (hx : isExcludedTotal k.desc = false)
    (hd : hasData L k years = true) :
    (∃ r ∈ unscheduledRows L years, r.description = k.desc) ∧
      List.Pairwise (fun r1 r2 : Row => strLe r1.description r2.description = true)
        (unscheduledRows L years) ∧
      projectRows L years = schemaRows L years ++ unscheduledRows L years := by
  refine ⟨?_, ?_, rfl⟩
  · exact ⟨rowFor L years k,
      (mem_unscheduledRows L years _).mpr ⟨k, hk, hm, hx, hd, rfl⟩, rfl⟩
  · have hp := pairwise_sortOrd (fun a b : BKey => strLe a.desc b.desc)
      (fun a b => strLe_total a.desc b.desc)
      (fun a b c h1 h2 => strLe_trans a.desc b.desc c.desc h1 h2)
      (L.keys.filter (fun k2 => !(inMaster k2.desc) && !(isExcludedTotal k2.desc)))
    have hp2 : (unscheduledKeys L).Pairwise
        (fun a b : BKey => strLe a.desc b.desc = true) := hp
    have hp3 := hp2.filter (fun k2 => hasData L k2 years)
    exact List.pairwise_map.mpr hp3

/-- Witness for the amended C3: one unscheduled description with data. -/
def unschedLedger : BLedger :=
  ⟨[(("Sundry income"), ("Revenue"), ("Income"))],
   fun k y => if k = (("Sundry income"), ("Revenue"), ("Income")) ∧ y = 2022
     then some 42 else none⟩

theorem unscheduled_rows_amended_witness :
    (∃ r ∈ unscheduledRows unschedLedger [2022],
        r.description = ("Sundry income")) ∧
      List.Pairwise (fun r1 r2 : Row => strLe r1.description r2.description = true)
        (unscheduledRows unschedLedger [2022]) ∧
      projectRows unschedLedger [2022] =
        schemaRows unschedLedger [2022] ++ unscheduledRows unschedLedger [2022] :=
  unscheduled_rows_amended unschedLedger [2022]
    ((("Sundry income"), ("Revenue"), ("Income")))
    (by decide) (by decide) (by decide) (by decide)

end PdfExcel
